import Mathlib

/-
Verification development for the `reportable` media-extraction tool
(src/reportable/main.py), a linear extract → validate → copy → rewrite
pipeline over a single document.

Shallow embedding conventions:
- Python `pathlib.Path` values are modelled by `Reportable.Path`: an
  `absolute` flag plus the list of path components.  Parsing a string
  mirrors pathlib's PurePath normalisation: repeated slashes and single-dot
  components are dropped, `..` components are kept.  `Path.resolve` takes
  the process working directory explicitly (Python's `resolve()` reads it
  implicitly) and cancels `..` components; the modelled filesystem has no
  symlinks.
- The filesystem is a value: a list of (absolute path, contents) files plus
  a list of directories.  Python's `Path.exists()` is `pathExists` (true
  for files and directories alike), `shutil.copy` is `setFile`, and
  `shutil.copytree` is `copyTree`.
- Console output, file writes and the subprocess invocation are recorded as
  an `Event` trace; `typer.Exit(1)` and uncaught exceptions become the
  `Outcome` of a run.
- The regular expression QUARTO_PATTERN of main.py is embedded as an
  executable scanner (`scanGo`) implementing Python `re.findall` semantics
  for this concrete pattern: at each position the four alternatives are
  tried in order, a match consumes its matched span, and the four capture
  groups of each match are collected (empty string for a group that did not
  participate).  `re.MULTILINE` only affects `^`/`$`, which the pattern
  does not use.  Python's `\s` is modelled by its ASCII cases.
-/

namespace Reportable

/-- Model of a pathlib path: absolute flag plus components. -/
structure Path where
  absolute : Bool
  components : List String
deriving DecidableEq, Repr

/-- Split a character list on the slash character. -/
def splitSlash (cs : List Char) : List (List Char) :=
  cs.foldr
    (fun c acc =>
      if c == '/' then [] :: acc
      else
        match acc with
        | [] => [[c]]
        | h :: t => (c :: h) :: t)
    [[]]

/-- Parse a path string as pathlib's PurePath constructor does: the path is
absolute iff it starts with a slash, empty and single-dot components are
dropped, `..` components are kept. -/
def parsePath (s : String) : Path :=
  ⟨(match s.data with | c :: _ => c == '/' | [] => false),
   ((splitSlash s.data).map (fun cs => String.mk cs)).filter
     (fun comp => comp != "" && comp != ".")⟩

/-- Join components with slashes. -/
def joinComps : List String → String
  | [] => ""
  | [c] => c
  | c :: d :: rest => c ++ "/" ++ joinComps (d :: rest)

/-- String form of a path, as Python `str(path)` renders it ("." for an
empty relative path). -/
def Path.toStr (p : Path) : String :=
  if p.absolute then "/" ++ joinComps p.components
  else if p.components.isEmpty then "." else joinComps p.components

/-- Final component of the path (pathlib `Path.name`), "" if there is none. -/
def Path.name (p : Path) : String := (p.components.getLast?).getD ""

/-- Parent path (pathlib `Path.parent`): drop the last component. -/
def Path.parent (p : Path) : Path := ⟨p.absolute, p.components.dropLast⟩

/-- Join (pathlib `/`): an absolute right operand replaces the left one. -/
def Path.join (p q : Path) : Path :=
  if q.absolute then q else ⟨p.absolute, p.components ++ q.components⟩

/-- Extension of the path (pathlib `Path.suffix`): the part of the last
component from its last dot on, empty when the name has no dot, starts with
its only dot, or ends with the dot. -/
def Path.suffix (p : Path) : String :=
  let cs := (Path.name p).data
  let afterLen := (cs.reverse.takeWhile (fun c => c != '.')).length
  if afterLen == cs.length then ""
  else if afterLen == 0 then ""
  else if afterLen + 1 == cs.length then ""
  else String.mk ('.' :: (cs.reverse.take afterLen).reverse)

/-- ASCII lower-casing of a string (Python `str.lower` on ASCII data). -/
def lowerString (s : String) : String := String.mk (s.data.map Char.toLower)

/-- Python `Path.resolve()`: make the path absolute against the working
directory and cancel `..` components (no symlinks in the model). -/
def Path.resolve (cwd p : Path) : Path :=
  let q := if p.absolute then p else Path.join cwd p
  ⟨true, q.components.foldl
    (fun acc comp => if comp == ".." then acc.dropLast else acc ++ [comp]) []⟩

/-- Filesystem state: files (absolute resolved path, contents) and
directories (absolute resolved paths). -/
structure FileSystem where
  files : List (Path × String)
  dirs : List Path
deriving DecidableEq, Repr

/-- Contents of the file at `p`, if a file is there. -/
def FileSystem.readFile (fs : FileSystem) (p : Path) : Option String :=
  (fs.files.find? (fun e => e.1 == p)).map (fun e => e.2)

/-- Whether a regular file is at `p`. -/
def FileSystem.isFile (fs : FileSystem) (p : Path) : Bool :=
  (fs.readFile p).isSome

/-- Whether a directory is at `p`. -/
def FileSystem.isDir (fs : FileSystem) (p : Path) : Bool :=
  decide (p ∈ fs.dirs)

/-- Python `Path.exists()`: true for a file or a directory at `p`. -/
def FileSystem.pathExists (fs : FileSystem) (p : Path) : Bool :=
  fs.isFile p || fs.isDir p

/-- Create or overwrite the file at `p` (shutil.copy target side, `open(…,
"w")`). -/
def FileSystem.setFile (fs : FileSystem) (p : Path) (content : String) : FileSystem :=
  ⟨(p, content) :: fs.files.filter (fun e => !(e.1 == p)), fs.dirs⟩

/-- `Path.mkdir(exist_ok=True)`. -/
def FileSystem.mkdir (fs : FileSystem) (p : Path) : FileSystem :=
  if fs.isDir p then fs else ⟨fs.files, p :: fs.dirs⟩

/-- `Path.mkdir(parents=True, exist_ok=True)`: create every ancestor. -/
def FileSystem.mkdirParents (fs : FileSystem) (p : Path) : FileSystem :=
  (List.range (p.components.length + 1)).foldl
    (fun acc i => acc.mkdir ⟨p.absolute, p.components.take i⟩) fs

/-- Rebase `p` from the tree rooted at `src` to the tree rooted at `dst`. -/
def rebasePath (src dst p : Path) : Option Path :=
  if src.absolute == p.absolute && src.components.isPrefixOf p.components then
    some ⟨dst.absolute, dst.components ++ p.components.drop src.components.length⟩
  else none

/-- `shutil.copytree src dst`: every file and directory under `src` is
mirrored under `dst` (only called when `dst` does not exist). -/
def FileSystem.copyTree (fs : FileSystem) (src dst : Path) : FileSystem :=
  ⟨(fs.files.filterMap (fun e => (rebasePath src dst e.1).map (fun q => (q, e.2)))) ++ fs.files,
   (fs.dirs.filterMap (fun d => rebasePath src dst d)) ++ fs.dirs⟩

/-- Observable actions of a pipeline run. -/
inductive Event where
  | print (msg : String)
  | echo (msg : String)
  | mkdirEv (p : Path)
  | copyFile (src dest : Path)
  | writeFile (p : Path) (content : String)
  | copyTreeEv (src dest : Path)
  | runShell (cmd : String)
deriving DecidableEq, Repr

/-- Whether an event is the external-renderer subprocess invocation. -/
def Event.isRunShell : Event → Bool
  | Event.runShell _ => true
  | _ => false

/-- How a run ends: normally, with a `typer.Exit` code, or with an uncaught
exception. -/
inductive Outcome where
  | ok
  | exited (code : Nat)
  | raised (exc : String)
deriving DecidableEq, Repr

/-- Result of a (partial) pipeline run: final filesystem, event trace,
outcome. -/
structure RunResult where
  fs : FileSystem
  events : List Event
  outcome : Outcome
deriving DecidableEq, Repr

/-- SUPPORTED_EXTENSIONS of main.py. -/
def SUPPORTED_EXTENSIONS : List String :=
  [".png", ".jpg", ".jpeg", ".gif", ".svg", ".mp4", ".mp3", ".wav"]

/-- Resolution step shared by check_path_validity and copy_media_files: a
relative path is joined to the report file's directory, then resolved. -/
def resolveCandidate (report_file cwd : Path) (media_path : Path) : Path :=
  if !media_path.absolute then
    Path.resolve cwd (Path.join (Path.parent report_file) media_path)
  else Path.resolve cwd media_path

/-- The validity test of main.py on an already-parsed path: supported
lower-cased extension of the resolved path, and the resolved path exists. -/
def validPathCond (report_file cwd : Path) (fs : FileSystem) (mp : Path) : Bool :=
  let full := resolveCandidate report_file cwd mp
  SUPPORTED_EXTENSIONS.contains (lowerString (Path.suffix full)) && fs.pathExists full

/-- The validity test of main.py on a raw candidate string. -/
def validCond (report_file cwd : Path) (fs : FileSystem) (p : String) : Bool :=
  validPathCond report_file cwd fs (parsePath p)

/-- check_path_validity of main.py: keep the candidates whose resolved path
has a supported extension and exists, returning (resolved paths, original
paths as constructed by `Path(path)`). -/
def check_path_validity (paths : List String) (report_file : Path) (cwd : Path)
    (fs : FileSystem) : List Path × List Path :=
  match paths with
  | [] => ([], [])
  | p :: rest =>
    let media_path := parsePath p
    let old_media_path := media_path
    let full_path := resolveCandidate report_file cwd media_path
    let tailRes := check_path_validity rest report_file cwd fs
    if validPathCond report_file cwd fs media_path then
      (full_path :: tailRes.1, old_media_path :: tailRes.2)
    else tailRes

/-- copy_media_files of main.py: re-resolve and re-check each path; copy a
valid file to dest_dir/<name>, warn on an invalid one.  `shutil.copy`
applied to an existing path that is not a regular file raises, which aborts
the run as an uncaught exception. -/
def copy_media_files (media_paths : List Path) (report_file : Path)
    (dest_dir : Path) (cwd : Path) (fs : FileSystem) : RunResult :=
  match media_paths with
  | [] => ⟨fs, [], Outcome.ok⟩
  | mp :: rest =>
    let full_path := resolveCandidate report_file cwd mp
    if validPathCond report_file cwd fs mp then
      match fs.readFile full_path with
      | some data =>
        let dest_path := Path.join dest_dir (parsePath (Path.name mp))
        let destAbs := Path.resolve cwd dest_path
        let fs2 := fs.setFile destAbs data
        let tailRes := copy_media_files rest report_file dest_dir cwd fs2
        ⟨tailRes.fs,
         Event.copyFile full_path destAbs ::
           Event.print ("Copied: [bold green]" ++ Path.name full_path
             ++ "[/bold green] to " ++ Path.toStr (Path.parent dest_path)) ::
           tailRes.events,
         tailRes.outcome⟩
      | none => ⟨fs, [], Outcome.raised "IsADirectoryError"⟩
    else
      let tailRes := copy_media_files rest report_file dest_dir cwd fs
      ⟨tailRes.fs,
       Event.echo ("Warning: "
         ++ Path.toStr (resolveCandidate report_file cwd mp)
         ++ " not found or unsupported extension.") :: tailRes.events,
       tailRes.outcome⟩

/-- One pass of Python `str.replace` with a non-empty pattern `old`, as a
left-to-right scan: at each position, either the pattern matches (emit the
replacement, consume the matched span) or the character is kept.  `skip`
counts characters of a matched span still to be consumed. -/
def pyRepGo (old new : List Char) (skip : Nat) : List Char → List Char
  | [] => []
  | c :: rest =>
    match skip with
    | k + 1 => pyRepGo old new k rest
    | 0 =>
      if old.isPrefixOf (c :: rest) then
        new ++ pyRepGo old new (old.length - 1) rest
      else c :: pyRepGo old new 0 rest

/-- Python `str.replace(old, new)` (global, literal, non-overlapping,
left-to-right; for an empty `old`, Python inserts `new` before every
character and at the end). -/
def pyReplace (s old new : String) : String :=
  match old.data with
  | [] => String.mk (new.data ++ s.data.foldr (fun c acc => c :: (new.data ++ acc)) [])
  | _ :: _ => String.mk (pyRepGo old.data new.data 0 s.data)

/-- replace_media_paths of main.py: zip the two path lists positionally and
apply `content.replace(str(old), str(new))` sequentially in list order. -/
def replace_media_paths (content : String) (old_paths new_paths : List Path) : String :=
  (old_paths.zip new_paths).foldl
    (fun acc pr => pyReplace acc (Path.toStr pr.1) (Path.toStr pr.2)) content

/-- make_relative_paths of main.py: `Path(dest_dir.name) / media_path.name`
for each media path. -/
def make_relative_paths (media_paths : List Path) (dest_dir : Path) : List Path :=
  media_paths.map
    (fun mp => Path.join (parsePath (Path.name dest_dir)) (parsePath (Path.name mp)))

/-- Decomposition of a text along the same scan as `pyRepGo`: the pieces
between the greedy non-overlapping occurrences of `old`. -/
def chunksGo (old : List Char) (skip : Nat) : List Char → List (List Char)
  | [] => [[]]
  | c :: rest =>
    match skip with
    | k + 1 => chunksGo old k rest
    | 0 =>
      if old.isPrefixOf (c :: rest) then
        [] :: chunksGo old (old.length - 1) rest
      else
        match chunksGo old 0 rest with
        | [] => [[c]]
        | h :: t => (c :: h) :: t

/-- The pieces of `s` between the occurrences of `old` that `str.replace`
substitutes. -/
def pyChunks (old s : List Char) : List (List Char) := chunksGo old 0 s

/-- Interleave a separator between pieces. -/
def glue (sep : List Char) : List (List Char) → List Char
  | [] => []
  | [c] => c
  | c :: d :: rest => c ++ sep ++ glue sep (d :: rest)

/-- ASCII cases of Python's regex class `\s`. -/
def isPyWhitespace (c : Char) : Bool :=
  c == ' ' || c == '\t' || c == '\n' || c == '\r' || c == '\x0b' || c == '\x0c'

/-- A double or single quote. -/
def isQuoteChar (c : Char) : Bool := c == '"' || c == '\''

/-- A character of the regex class complementing quotes, comma and
whitespace. -/
def isValueChar (c : Char) : Bool := !(isQuoteChar c || c == ',' || isPyWhitespace c)

/-- Match the regex fragment of QUARTO_PATTERN consisting of an optional
quote, one or more value characters (captured) and an optional closing
quote, returning consumed length and the captured group. -/
def matchValueTail (cs : List Char) : Option (Nat × String) :=
  match cs with
  | [] => none
  | c :: rest =>
    if isQuoteChar c then
      let v := rest.takeWhile isValueChar
      if v.length == 0 then none
      else
        let rest2 := rest.drop v.length
        let closeN := match rest2 with
          | [] => 0
          | d :: _ => if isQuoteChar d then 1 else 0
        some (1 + v.length + closeN, String.mk v)
    else
      let v := (c :: rest).takeWhile isValueChar
      if v.length == 0 then none
      else
        let rest2 := (c :: rest).drop v.length
        let closeN := match rest2 with
          | [] => 0
          | d :: _ => if isQuoteChar d then 1 else 0
        some (v.length + closeN, String.mk v)

/-- Match optional whitespace followed by the quoted-value fragment (the
part of the first two QUARTO_PATTERN alternatives after the separator). -/
def matchAfterSep (cs : List Char) : Option (Nat × String) :=
  let wsN := (cs.takeWhile isPyWhitespace).length
  (matchValueTail (cs.drop wsN)).map (fun p => (wsN + p.1, p.2))

/-- Match the lazy middle and captured target of the Markdown-image regex
fragment: any non-newline characters (lazily) up to a bracket-paren pair,
then the lazily captured group up to the first closing parenthesis. -/
def findParenClose : List Char → Option (Nat × List Char)
  | [] => none
  | c :: rest =>
    if c == ')' then some (1, [])
    else if c == '\n' then none
    else
      match findParenClose rest with
      | some p => some (p.1 + 1, c :: p.2)
      | none => none

/-- Match the regex fragment after the image prefix: lazy any-characters,
a closing bracket, an opening parenthesis, then the captured group and its
closing parenthesis, with full backtracking of the lazy part. -/
def mdBody : List Char → Option (Nat × List Char)
  | [] => none
  | c :: rest =>
    if c == '\n' then none
    else if c == ']' && rest.head? == some '(' then
      match findParenClose rest.tail with
      | some p => some (2 + p.1, p.2)
      | none => (mdBody rest).map (fun p => (1 + p.1, p.2))
    else (mdBody rest).map (fun p => (1 + p.1, p.2))

/-- First QUARTO_PATTERN alternative: colon, optional whitespace, optional
quote, captured value, optional quote. -/
def tryColon : List Char → Option (Nat × String)
  | ':' :: rest => (matchAfterSep rest).map (fun p => (1 + p.1, p.2))
  | _ => none

/-- Second QUARTO_PATTERN alternative: equals sign then the same tail. -/
def tryEq : List Char → Option (Nat × String)
  | '=' :: rest => (matchAfterSep rest).map (fun p => (1 + p.1, p.2))
  | _ => none

/-- Third QUARTO_PATTERN alternative: Markdown image syntax. -/
def tryImage : List Char → Option (Nat × String)
  | '!' :: '[' :: rest => (mdBody rest).map (fun p => (2 + p.1, String.mk p.2))
  | _ => none

/-- Fourth QUARTO_PATTERN alternative: a lookbehind requiring a colon and a
whitespace as the two preceding characters, then the quoted-value
fragment. -/
def tryLookbehind (prev2 prev1 : Option Char) (cs : List Char) : Option (Nat × String) :=
  match prev2, prev1 with
  | some a, some b =>
    if a == ':' && isPyWhitespace b then matchValueTail cs else none
  | _, _ => none

/-- The four capture groups of one QUARTO_PATTERN match ("" for a group
that did not participate), as `re.findall` reports them. -/
structure QGroups where
  g1 : String
  g2 : String
  g3 : String
  g4 : String
deriving DecidableEq, Repr

/-- Try the four QUARTO_PATTERN alternatives, in order, at one position. -/
def tryMatchQ (prev2 prev1 : Option Char) (cs : List Char) : Option (Nat × QGroups) :=
  match tryColon cs with
  | some p => some (p.1, ⟨p.2, "", "", ""⟩)
  | none =>
    match tryEq cs with
    | some p => some (p.1, ⟨"", p.2, "", ""⟩)
    | none =>
      match tryImage cs with
      | some p => some (p.1, ⟨"", "", p.2, ""⟩)
      | none =>
        match tryLookbehind prev2 prev1 cs with
        | some p => some (p.1, ⟨"", "", "", p.2⟩)
        | none => none

/-- The `re.findall` scan of QUARTO_PATTERN: walk the text left to right,
record the groups of each match and resume after its span (`skip` counts
the remaining characters of the current span; `prev2`, `prev1` track the
two previous characters of the original text for the lookbehind). -/
def scanGo (prev2 prev1 : Option Char) (skip : Nat) : List Char → List QGroups
  | [] => []
  | c :: rest =>
    match skip with
    | k + 1 => scanGo prev1 (some c) k rest
    | 0 =>
      match tryMatchQ prev2 prev1 (c :: rest) with
      | some p => p.2 :: scanGo prev1 (some c) (p.1 - 1) rest
      | none => scanGo prev1 (some c) 0 rest

/-- Non-empty groups of one match, in group order. -/
def groupsToList (g : QGroups) : List String :=
  ([g.g1, g.g2, g.g3, g.g4]).filter (fun s => s != "")

/-- find_quarto_media of main.py: flatten the non-empty captured groups of
all QUARTO_PATTERN matches, in match order then group order. -/
def find_quarto_media (content : String) : List String :=
  (scanGo none none 0 content.data).foldr (fun g acc => groupsToList g ++ acc) []

/-- process_latex_file of main.py: prints that it is not implemented and
does nothing else (the extraction and copy calls are commented out in the
source). -/
def process_latex_file (file_path dest_dir : Path) (cwd : Path) (fs : FileSystem) : RunResult :=
  ⟨fs, [Event.print "[bold red]Not implemented yet![/bold red]"], Outcome.ok⟩

/-- process_markdown_file of main.py: prints that it is not implemented and
does nothing else. -/
def process_markdown_file (file_path dest_dir : Path) (cwd : Path) (fs : FileSystem) : RunResult :=
  ⟨fs, [Event.print "[bold red]Not implemented yet![/bold red]"], Outcome.ok⟩

/-- Final steps of the Quarto pipeline: announce and invoke the external
renderer through the shell. -/
def quartoFinish (fs : FileSystem) (evs : List Event) (new_file_path : Path) : RunResult :=
  ⟨fs,
   evs ++ [Event.print "Running Quarto build command...",
           Event.runShell ("quarto render " ++ Path.toStr new_file_path)],
   Outcome.ok⟩

/-- process_quarto_file of main.py: read the document, extract and validate
media paths, copy the valid files, rewrite the references, write the new
document next to the assets directory, copy an `_extensions` sibling
directory if present (`shutil.copytree` raises when the destination already
exists), and invoke the renderer. -/
def process_quarto_file (file_path dest_dir : Path) (cwd : Path) (fs : FileSystem) : RunResult :=
  match fs.readFile (Path.resolve cwd file_path) with
  | none => ⟨fs, [], Outcome.raised "FileNotFoundError"⟩
  | some content =>
    let media_paths := find_quarto_media content
    let checked := check_path_validity media_paths file_path cwd fs
    let copyRes := copy_media_files checked.1 file_path dest_dir cwd fs
    match copyRes.outcome with
    | Outcome.ok =>
      let new_relative_paths := make_relative_paths checked.1 dest_dir
      let new_content := replace_media_paths content checked.2 new_relative_paths
      let new_file_path := Path.join (Path.parent dest_dir) (parsePath (Path.name file_path))
      let nfAbs := Path.resolve cwd new_file_path
      let fs2 := copyRes.fs.setFile nfAbs new_content
      let evs2 := copyRes.events ++
        [Event.writeFile nfAbs new_content,
         Event.print ("New file created: [bold green]" ++ Path.toStr new_file_path
           ++ "[/bold green]")]
      let extensions_dir := Path.join (Path.parent file_path) (parsePath "_extensions")
      let extAbs := Path.resolve cwd extensions_dir
      if fs2.pathExists extAbs then
        let dest_extensions_dir := Path.join (Path.parent dest_dir) (parsePath "_extensions")
        let dexAbs := Path.resolve cwd dest_extensions_dir
        if fs2.pathExists dexAbs then
          ⟨fs2, evs2, Outcome.raised "FileExistsError"⟩
        else
          quartoFinish (fs2.copyTree extAbs dexAbs)
            (evs2 ++ [Event.copyTreeEv extAbs dexAbs,
                      Event.print ("Copied: [bold green]" ++ Path.toStr extensions_dir
                        ++ "[/bold green] to " ++ Path.toStr dest_extensions_dir)])
            new_file_path
      else quartoFinish fs2 evs2 new_file_path
    | oc => ⟨copyRes.fs, copyRes.events, oc⟩

/-- extract of main.py: create the output directory and its assets
subdirectory, then dispatch on the report file's extension; an unsupported
extension prints a message and exits with code 1. -/
def extract (report_file output_dir : Path) (cwd : Path) (fs : FileSystem) : RunResult :=
  let odAbs := Path.resolve cwd output_dir
  let fs1 := FileSystem.mkdirParents fs odAbs
  let assets_dir := Path.join output_dir (parsePath "assets")
  let assetsAbs := Path.resolve cwd assets_dir
  let fs2 := FileSystem.mkdir fs1 assetsAbs
  let evs0 := [Event.mkdirEv odAbs, Event.mkdirEv assetsAbs]
  if Path.suffix report_file == ".tex" then
    let r := process_latex_file report_file assets_dir cwd fs2
    ⟨r.fs, evs0 ++ (Event.print ("Processing LaTeX file: " ++ Path.toStr report_file) :: r.events),
     r.outcome⟩
  else if Path.suffix report_file == ".md" then
    let r := process_markdown_file report_file assets_dir cwd fs2
    ⟨r.fs, evs0 ++ (Event.print ("Processing Markdown file: " ++ Path.toStr report_file) :: r.events),
     r.outcome⟩
  else if Path.suffix report_file == ".qmd" then
    let r := process_quarto_file report_file assets_dir cwd fs2
    ⟨r.fs, evs0 ++ (Event.print ("Processing Quarto file: " ++ Path.toStr report_file) :: r.events),
     r.outcome⟩
  else
    ⟨fs2,
     evs0 ++ [Event.print "Unsupported file format. Please provide a LaTeX, Markdown, or Quarto file."],
     Outcome.exited 1⟩

/-- Characterisation of check_path_validity: both returned lists arise from
the same filter of the candidates, mapped to the resolved respectively the
parsed form. -/
theorem check_path_validity_eq (paths : List String) (report_file cwd : Path)
    (fs : FileSystem) :
    check_path_validity paths report_file cwd fs =
      ((paths.filter (validCond report_file cwd fs)).map
         (fun p => resolveCandidate report_file cwd (parsePath p)),
       (paths.filter (validCond report_file cwd fs)).map parsePath) := by
  induction paths with
  | nil => rfl
  | cons p rest ih =>
    simp only [check_path_validity, List.filter_cons]
    by_cases h : validPathCond report_file cwd fs (parsePath p) = true
    · simp [validCond, h, ih]
    · simp [validCond, h, ih]

/-- C1 (amended): a candidate is classified valid by check_path_validity
iff the lower-cased extension of its resolved path is in
SUPPORTED_EXTENSIONS and the resolved path exists on the filesystem (an
existence check, not a regular-file check); invalid candidates raise no
error and are simply excluded, the returned lists being exactly the valid
candidates in resolved respectively original form. -/
theorem claim_C1 : ∀ (paths : List String) (report_file cwd : Path) (fs : FileSystem),
    (check_path_validity paths report_file cwd fs).1
        = (paths.filter (validCond report_file cwd fs)).map
            (fun p => resolveCandidate report_file cwd (parsePath p))
    ∧ (check_path_validity paths report_file cwd fs).2
        = (paths.filter (validCond report_file cwd fs)).map parsePath
    ∧ ∀ p, p ∈ paths →
        (parsePath p ∈ (check_path_validity paths report_file cwd fs).2
          ↔ validCond report_file cwd fs p = true) := by
  intro paths report_file cwd fs
  have heq := check_path_validity_eq paths report_file cwd fs
  refine ⟨by rw [heq], by rw [heq], ?_⟩
  intro p hp
  rw [heq]
  constructor
  · intro hmem
    rcases List.mem_map.mp hmem with ⟨q, hq, hpq⟩
    rcases List.mem_filter.mp hq with ⟨_, hcq⟩
    have hvc : validCond report_file cwd fs q
        = validPathCond report_file cwd fs (parsePath q) := rfl
    rw [show validCond report_file cwd fs p
        = validPathCond report_file cwd fs (parsePath p) from rfl, ← hpq, ← hvc]
    exact hcq
  · intro hc
    exact List.mem_map.mpr ⟨p, List.mem_filter.mpr ⟨hp, hc⟩, rfl⟩

/-- Filesystem with a directory (not a regular file) named
/base/x.png. -/
def cexC1fs : FileSystem :=
  ⟨[], [⟨true, []⟩, ⟨true, ["base"]⟩, ⟨true, ["base", "x.png"]⟩]⟩

/-- C1 counterexample: a directory named x.png is classified valid by
check_path_validity although it is not a regular file, refuting the claim
that validity requires an existing regular file. -/
theorem claim_C1_counterexample :
    (check_path_validity ["x.png"] (parsePath "/base/r.qmd") (parsePath "/") cexC1fs).1
        = [⟨true, ["base", "x.png"]⟩]
    ∧ cexC1fs.isFile ⟨true, ["base", "x.png"]⟩ = false
    ∧ cexC1fs.pathExists ⟨true, ["base", "x.png"]⟩ = true := by decide

/-- Witness for claim_C1 at a concrete input. -/
theorem claim_C1_witness :
    (parsePath "x.png"
        ∈ (check_path_validity ["x.png"] (parsePath "/base/r.qmd") (parsePath "/") cexC1fs).2
      ↔ validCond (parsePath "/base/r.qmd") (parsePath "/") cexC1fs "x.png" = true) :=
  (claim_C1 ["x.png"] (parsePath "/base/r.qmd") (parsePath "/") cexC1fs).2.2
    "x.png" (by decide)

/-- C9: check_path_validity returns two lists of equal length, the i-th
resolved path being the resolution of the i-th original path, with the
candidates' relative order and duplicates preserved, so that the zip-based
rewrite mapping over make_relative_paths is well defined and drops no valid
entry. -/
theorem claim_C9 : ∀ (paths : List String) (report_file cwd dest_dir : Path)
    (fs : FileSystem),
    (check_path_validity paths report_file cwd fs).1.length
        = (check_path_validity paths report_file cwd fs).2.length
    ∧ (check_path_validity paths report_file cwd fs).1
        = (check_path_validity paths report_file cwd fs).2.map
            (fun mp => resolveCandidate report_file cwd mp)
    ∧ (check_path_validity paths report_file cwd fs).2
        = (paths.filter (validCond report_file cwd fs)).map parsePath
    ∧ (make_relative_paths (check_path_validity paths report_file cwd fs).1 dest_dir).length
        = (check_path_validity paths report_file cwd fs).1.length
    ∧ ((check_path_validity paths report_file cwd fs).2.zip
        (make_relative_paths (check_path_validity paths report_file cwd fs).1 dest_dir)).length
        = (check_path_validity paths report_file cwd fs).2.length := by
  intro paths report_file cwd dest_dir fs
  have heq := check_path_validity_eq paths report_file cwd fs
  rw [heq]
  refine ⟨by simp, by simp [List.map_map], rfl, by simp [make_relative_paths], ?_⟩
  simp [make_relative_paths, List.length_zip]

/-- Filesystem for the round-trip scenario: a Quarto document referencing
./img/a.png next to an existing PNG file. -/
def fsC2 : FileSystem :=
  ⟨[(⟨true, ["work", "doc.qmd"]⟩, "![](./img/a.png)"),
    (⟨true, ["work", "img", "a.png"]⟩, "PNGDATA")],
   [⟨true, []⟩, ⟨true, ["work"]⟩, ⟨true, ["work", "img"]⟩]⟩

/-- C2 counterexample: the pipeline writes a sibling document containing
`./assets/a.png`, not `assets/a.png` as the claim states: `Path("./img/a.png")`
normalises to `img/a.png`, so only that substring is substituted and the
as-written `./` prefix survives. -/
theorem claim_C2_counterexample :
    (extract (parsePath "/work/doc.qmd") (parsePath "/out") (parsePath "/") fsC2).fs.readFile
        ⟨true, ["out", "doc.qmd"]⟩ = some "![](./assets/a.png)"
    ∧ pyReplace "![](./img/a.png)" "./img/a.png" "assets/a.png" = "![](assets/a.png)"
    ∧ ("![](./assets/a.png)" : String) ≠ "![](assets/a.png)" := by decide

/-- C2 (amended): for a Quarto document whose body contains exactly one
image reference ./img/a.png to an existing PNG file, the pipeline (a)
copies a.png into the assets subdirectory of the output directory and (b)
writes a rewritten sibling document in which the reference becomes
./assets/a.png (the pathlib-normalised old path img/a.png is replaced by
assets/a.png, so the leading ./ is preserved). -/
theorem claim_C2 :
    (extract (parsePath "/work/doc.qmd") (parsePath "/out") (parsePath "/") fsC2).fs.readFile
        ⟨true, ["out", "assets", "a.png"]⟩ = some "PNGDATA"
    ∧ (extract (parsePath "/work/doc.qmd") (parsePath "/out") (parsePath "/") fsC2).fs.readFile
        ⟨true, ["out", "doc.qmd"]⟩ = some "![](./assets/a.png)"
    ∧ (extract (parsePath "/work/doc.qmd") (parsePath "/out") (parsePath "/") fsC2).outcome
        = Outcome.ok := by decide

/-- Whether `pat` occurs as a contiguous substring of the character
list. -/
def hasInfix (pat : List Char) : List Char → Bool
  | [] => pat.isEmpty
  | c :: rest => pat.isPrefixOf (c :: rest) || hasInfix pat rest

/-- Whether `pat` occurs as a substring of `s`. -/
def strContainsSub (s pat : String) : Bool := hasInfix pat.data s.data

/-- Quarto document containing the three claimed surface syntaxes, with a
line ending in a colon before the Markdown image. -/
def quartoCexDoc : String :=
  "key: \"path/to/x.jpg\"\nkey=path/to/y.svg\nnote:\n![](path/to/z.gif)\n"

/-- Quarto document consisting of exactly the three claimed lines. -/
def quartoThreeDoc : String :=
  "key: \"path/to/x.jpg\"\nkey=path/to/y.svg\n![](path/to/z.gif)\n"

/-- C3 counterexample: a document that contains the YAML-style line, the
inline attribute and the Markdown image, but whose extracted candidates do
not contain path/to/z.gif: the preceding line ends in a colon, whose
alternative consumes the whole image text (the captured candidate is the
bracketed image source text instead). -/
theorem claim_C3_counterexample :
    strContainsSub quartoCexDoc "key: \"path/to/x.jpg\"\n" = true
    ∧ strContainsSub quartoCexDoc "key=path/to/y.svg" = true
    ∧ strContainsSub quartoCexDoc "![](path/to/z.gif)" = true
    ∧ "path/to/z.gif" ∉ find_quarto_media quartoCexDoc
    ∧ find_quarto_media quartoCexDoc
        = ["path/to/x.jpg", "path/to/y.svg", "![](path/to/z.gif)"] := by decide

/-- C3 (amended): for the Quarto document consisting of the three lines
with the YAML-style pair, the inline attribute and the Markdown image, the
extractor's candidate sequence is exactly the three literal path strings;
the claim quantified over every document containing the three constructs
fails because an adjacent colon alternative can consume the image text. -/
theorem claim_C3 :
    find_quarto_media quartoThreeDoc
      = ["path/to/x.jpg", "path/to/y.svg", "path/to/z.gif"] := by decide

/-- Filesystem for the destination-flattening scenario: a/img.png and
b/img.png exist as distinct files with the given contents. -/
def fsC5 (cA cB : String) : FileSystem :=
  ⟨[(⟨true, ["base", "a", "img.png"]⟩, cA), (⟨true, ["base", "b", "img.png"]⟩, cB)],
   [⟨true, []⟩, ⟨true, ["base"]⟩, ⟨true, ["base", "a"]⟩, ⟨true, ["base", "b"]⟩,
    ⟨true, ["out"]⟩, ⟨true, ["out", "assets"]⟩]⟩

/-- C5: copying the references a/img.png and b/img.png, which resolve to
existing distinct files, writes both to the single destination
assets/img.png (basename only), and the second copy overwrites the
first. -/
theorem claim_C5 : ∀ (cA cB : String), cA ≠ cB →
    (copy_media_files [parsePath "a/img.png"] (parsePath "/base/r.qmd")
        (parsePath "/out/assets") (parsePath "/") (fsC5 cA cB)).fs.readFile
        ⟨true, ["out", "assets", "img.png"]⟩ = some cA
    ∧ (copy_media_files [parsePath "a/img.png", parsePath "b/img.png"] (parsePath "/base/r.qmd")
        (parsePath "/out/assets") (parsePath "/") (fsC5 cA cB)).fs.readFile
        ⟨true, ["out", "assets", "img.png"]⟩ = some cB
    ∧ (copy_media_files [parsePath "a/img.png", parsePath "b/img.png"] (parsePath "/base/r.qmd")
        (parsePath "/out/assets") (parsePath "/") (fsC5 cA cB)).fs.readFile
        ⟨true, ["out", "assets", "img.png"]⟩ ≠ some cA
    ∧ (copy_media_files [parsePath "a/img.png", parsePath "b/img.png"] (parsePath "/base/r.qmd")
        (parsePath "/out/assets") (parsePath "/") (fsC5 cA cB)).events
        = [Event.copyFile ⟨true, ["base", "a", "img.png"]⟩ ⟨true, ["out", "assets", "img.png"]⟩,
           Event.print "Copied: [bold green]img.png[/bold green] to /out/assets",
           Event.copyFile ⟨true, ["base", "b", "img.png"]⟩ ⟨true, ["out", "assets", "img.png"]⟩,
           Event.print "Copied: [bold green]img.png[/bold green] to /out/assets"]
    ∧ (copy_media_files [parsePath "a/img.png", parsePath "b/img.png"] (parsePath "/base/r.qmd")
        (parsePath "/out/assets") (parsePath "/") (fsC5 cA cB)).outcome = Outcome.ok := by
  intro cA cB h
  refine ⟨rfl, rfl, ?_, rfl, rfl⟩
  intro hcontra
  have h2 : some cB = some cA := hcontra
  exact h (Option.some.inj h2).symm

/-- Witness for claim_C5 at concrete contents. -/
theorem claim_C5_witness :
    (copy_media_files [parsePath "a/img.png", parsePath "b/img.png"] (parsePath "/base/r.qmd")
        (parsePath "/out/assets") (parsePath "/") (fsC5 "A" "B")).fs.readFile
        ⟨true, ["out", "assets", "img.png"]⟩ = some "B" :=
  (claim_C5 "A" "B" (by decide)).2.1

/-- Filesystem for the stubbed-pipeline scenario: a LaTeX document with an
includegraphics reference to an existing PNG file. -/
def fsC6 : FileSystem :=
  ⟨[(⟨true, ["w", "doc.tex"]⟩, "\\includegraphics\x7ba.png\x7d"),
    (⟨true, ["w", "a.png"]⟩, "P")],
   [⟨true, []⟩, ⟨true, ["w"]⟩]⟩

/-- C6 counterexample: running the pipeline on a LaTeX file that references
an existing PNG produces only the two mkdir events and two prints; no file
is copied into assets and the filesystem's files are untouched, refuting
the claim that extraction and copying are performed. -/
theorem claim_C6_counterexample :
    (extract (parsePath "/w/doc.tex") (parsePath "/out") (parsePath "/") fsC6).events
        = [Event.mkdirEv ⟨true, ["out"]⟩, Event.mkdirEv ⟨true, ["out", "assets"]⟩,
           Event.print "Processing LaTeX file: /w/doc.tex",
           Event.print "[bold red]Not implemented yet![/bold red]"]
    ∧ (extract (parsePath "/w/doc.tex") (parsePath "/out") (parsePath "/") fsC6).fs.readFile
        ⟨true, ["out", "assets", "a.png"]⟩ = none
    ∧ (extract (parsePath "/w/doc.tex") (parsePath "/out") (parsePath "/") fsC6).fs.files
        = fsC6.files := by decide

/-- C6 (amended): for every .tex or .md input file the pipeline only prints
a not-implemented message: no media extraction, no copy into the assets
directory, no rewriting, no new document and no renderer invocation (the
filesystem is left unchanged apart from the created output directories). -/
theorem claim_C6 : ∀ (fs : FileSystem) (cwd report_file output_dir dest_dir : Path),
    process_latex_file report_file dest_dir cwd fs
        = ⟨fs, [Event.print "[bold red]Not implemented yet![/bold red]"], Outcome.ok⟩
    ∧ process_markdown_file report_file dest_dir cwd fs
        = ⟨fs, [Event.print "[bold red]Not implemented yet![/bold red]"], Outcome.ok⟩
    ∧ (Path.suffix report_file = ".tex" →
        extract report_file output_dir cwd fs
          = ⟨FileSystem.mkdir (FileSystem.mkdirParents fs (Path.resolve cwd output_dir))
               (Path.resolve cwd (Path.join output_dir (parsePath "assets"))),
             [Event.mkdirEv (Path.resolve cwd output_dir),
              Event.mkdirEv (Path.resolve cwd (Path.join output_dir (parsePath "assets"))),
              Event.print ("Processing LaTeX file: " ++ Path.toStr report_file),
              Event.print "[bold red]Not implemented yet![/bold red]"],
             Outcome.ok⟩)
    ∧ (Path.suffix report_file = ".md" →
        extract report_file output_dir cwd fs
          = ⟨FileSystem.mkdir (FileSystem.mkdirParents fs (Path.resolve cwd output_dir))
               (Path.resolve cwd (Path.join output_dir (parsePath "assets"))),
             [Event.mkdirEv (Path.resolve cwd output_dir),
              Event.mkdirEv (Path.resolve cwd (Path.join output_dir (parsePath "assets"))),
              Event.print ("Processing Markdown file: " ++ Path.toStr report_file),
              Event.print "[bold red]Not implemented yet![/bold red]"],
             Outcome.ok⟩) := by
  intro fs cwd report_file output_dir dest_dir
  refine ⟨rfl, rfl, ?_, ?_⟩
  · intro h
    have h1 : (Path.suffix report_file == ".tex") = true := by rw [h]; rfl
    simp [extract, h1, process_latex_file]
  · intro h
    have h1 : (Path.suffix report_file == ".tex") = false := by rw [h]; rfl
    have h2 : (Path.suffix report_file == ".md") = true := by rw [h]; rfl
    simp [extract, h1, h2, process_markdown_file]

/-- Witness for claim_C6 at a concrete .tex input. -/
theorem claim_C6_witness :
    extract (parsePath "/w/doc.tex") (parsePath "/out") (parsePath "/") fsC6
      = ⟨FileSystem.mkdir
           (FileSystem.mkdirParents fsC6 (Path.resolve (parsePath "/") (parsePath "/out")))
           (Path.resolve (parsePath "/") (Path.join (parsePath "/out") (parsePath "assets"))),
         [Event.mkdirEv (Path.resolve (parsePath "/") (parsePath "/out")),
          Event.mkdirEv (Path.resolve (parsePath "/") (Path.join (parsePath "/out") (parsePath "assets"))),
          Event.print ("Processing LaTeX file: " ++ Path.toStr (parsePath "/w/doc.tex")),
          Event.print "[bold red]Not implemented yet![/bold red]"],
         Outcome.ok⟩ :=
  (claim_C6 fsC6 (parsePath "/") (parsePath "/w/doc.tex") (parsePath "/out")
    (parsePath "/out/assets")).2.2.1 (by decide)

/-- C7: for every input file whose extension is none of .tex, .md, .qmd,
the extract command prints the unsupported-format message and the run ends
with exit status 1. -/
theorem claim_C7 : ∀ (fs : FileSystem) (cwd report_file output_dir : Path),
    Path.suffix report_file ≠ ".tex" → Path.suffix report_file ≠ ".md" →
    Path.suffix report_file ≠ ".qmd" →
    (extract report_file output_dir cwd fs).outcome = Outcome.exited 1
    ∧ Event.print "Unsupported file format. Please provide a LaTeX, Markdown, or Quarto file."
        ∈ (extract report_file output_dir cwd fs).events := by
  intro fs cwd report_file output_dir h1 h2 h3
  have b1 : (Path.suffix report_file == ".tex") = false := beq_eq_false_iff_ne.mpr h1
  have b2 : (Path.suffix report_file == ".md") = false := beq_eq_false_iff_ne.mpr h2
  have b3 : (Path.suffix report_file == ".qmd") = false := beq_eq_false_iff_ne.mpr h3
  constructor <;> simp [extract, b1, b2, b3]

/-- Witness for claim_C7 at a concrete .docx input. -/
theorem claim_C7_witness :
    (extract (parsePath "/w/r.docx") (parsePath "/out") (parsePath "/")
        (⟨[], []⟩ : FileSystem)).outcome = Outcome.exited 1
    ∧ Event.print "Unsupported file format. Please provide a LaTeX, Markdown, or Quarto file."
        ∈ (extract (parsePath "/w/r.docx") (parsePath "/out") (parsePath "/")
            (⟨[], []⟩ : FileSystem)).events :=
  claim_C7 ⟨[], []⟩ (parsePath "/") (parsePath "/w/r.docx") (parsePath "/out")
    (by decide) (by decide) (by decide)

/-- Creating a directory makes it present. -/
theorem isDir_mkdir_self (fs : FileSystem) (p : Path) : (fs.mkdir p).isDir p = true := by
  by_cases h : p ∈ fs.dirs
  · simp [FileSystem.mkdir, FileSystem.isDir, h]
  · simp [FileSystem.mkdir, FileSystem.isDir, h]

/-- Creating a directory keeps every present directory present. -/
theorem isDir_mkdir_mono (fs : FileSystem) (p q : Path) (h : fs.isDir p = true) :
    (fs.mkdir q).isDir p = true := by
  have hp : p ∈ fs.dirs := by simpa [FileSystem.isDir] using h
  by_cases hq : q ∈ fs.dirs
  · simp [FileSystem.mkdir, FileSystem.isDir, hq, hp]
  · simp [FileSystem.mkdir, FileSystem.isDir, hq, List.mem_cons, hp]

/-- mkdir with parents makes the directory itself present. -/
theorem isDir_mkdirParents_self (fs : FileSystem) (p : Path) :
    (fs.mkdirParents p).isDir p = true := by
  unfold FileSystem.mkdirParents
  rw [List.range_succ, List.foldl_append]
  simp only [List.foldl_cons, List.foldl_nil]
  rw [List.take_length]
  exact isDir_mkdir_self _ p

/-- C10: every extract invocation records the creation of the output
directory and of its assets subdirectory as its first two events, before
any dispatch; in particular, on an unsupported extension the run exits with
code 1 while both directories have already been created. -/
theorem claim_C10 : ∀ (fs : FileSystem) (cwd report_file output_dir : Path),
    ((extract report_file output_dir cwd fs).events.take 2
        = [Event.mkdirEv (Path.resolve cwd output_dir),
           Event.mkdirEv (Path.resolve cwd (Path.join output_dir (parsePath "assets")))])
    ∧ (Path.suffix report_file ≠ ".tex" → Path.suffix report_file ≠ ".md" →
       Path.suffix report_file ≠ ".qmd" →
        (extract report_file output_dir cwd fs).outcome = Outcome.exited 1
        ∧ (extract report_file output_dir cwd fs).fs.isDir (Path.resolve cwd output_dir) = true
        ∧ (extract report_file output_dir cwd fs).fs.isDir
            (Path.resolve cwd (Path.join output_dir (parsePath "assets"))) = true) := by
  intro fs cwd report_file output_dir
  constructor
  · by_cases h1 : (Path.suffix report_file == ".tex") = true
    · simp [extract, h1, process_latex_file]
    · by_cases h2 : (Path.suffix report_file == ".md") = true
      · simp [extract, h1, h2, process_markdown_file]
      · by_cases h3 : (Path.suffix report_file == ".qmd") = true
        · simp [extract, h1, h2, h3]
        · simp [extract, h1, h2, h3]
  · intro h1 h2 h3
    have b1 : (Path.suffix report_file == ".tex") = false := beq_eq_false_iff_ne.mpr h1
    have b2 : (Path.suffix report_file == ".md") = false := beq_eq_false_iff_ne.mpr h2
    have b3 : (Path.suffix report_file == ".qmd") = false := beq_eq_false_iff_ne.mpr h3
    refine ⟨by simp [extract, b1, b2, b3], ?_, ?_⟩
    · simp only [extract, b1, b2, b3]
      simp only [Bool.false_eq_true, if_false]
      exact isDir_mkdir_mono _ _ _ (isDir_mkdirParents_self fs (Path.resolve cwd output_dir))
    · simp only [extract, b1, b2, b3]
      simp only [Bool.false_eq_true, if_false]
      exact isDir_mkdir_self _ _

/-- Witness for claim_C10 at a concrete .docx input. -/
theorem claim_C10_witness :
    ((extract (parsePath "/w/r.docx") (parsePath "/out") (parsePath "/")
        (⟨[], []⟩ : FileSystem)).events.take 2
      = [Event.mkdirEv (Path.resolve (parsePath "/") (parsePath "/out")),
         Event.mkdirEv (Path.resolve (parsePath "/")
           (Path.join (parsePath "/out") (parsePath "assets")))])
    ∧ (extract (parsePath "/w/r.docx") (parsePath "/out") (parsePath "/")
        (⟨[], []⟩ : FileSystem)).outcome = Outcome.exited 1 :=
  ⟨(claim_C10 ⟨[], []⟩ (parsePath "/") (parsePath "/w/r.docx") (parsePath "/out")).1,
   ((claim_C10 ⟨[], []⟩ (parsePath "/") (parsePath "/w/r.docx") (parsePath "/out")).2
     (by decide) (by decide) (by decide)).1⟩

/-- The chunk decomposition is never empty. -/
theorem chunksGo_ne_nil (o : Char) (os : List Char) (s : List Char) :
    ∀ skip, chunksGo (o :: os) skip s ≠ [] := by
  induction s with
  | nil => intro skip; simp [chunksGo]
  | cons c rest ih =>
    intro skip
    cases skip with
    | succ k => simpa [chunksGo] using ih k
    | zero =>
      by_cases hp : (o :: os) <+: (c :: rest)
      · simp [chunksGo, hp]
      · rcases hrest : chunksGo (o :: os) 0 rest with _ | ⟨h, t⟩
        · exact absurd hrest (ih 0)
        · simp [chunksGo, hp, hrest]

/-- Scanning in the skip state is scanning the dropped remainder. -/
theorem chunksGo_skip_drop (o : Char) (os : List Char) (s : List Char) :
    ∀ skip, chunksGo (o :: os) skip s = chunksGo (o :: os) 0 (s.drop skip) := by
  induction s with
  | nil => intro skip; simp [chunksGo]
  | cons c rest ih =>
    intro skip
    cases skip with
    | zero => rfl
    | succ k => simpa [chunksGo, List.drop_succ_cons] using ih k

/-- Gluing a head character onto the first chunk. -/
theorem glue_cons_head (sep : List Char) (c : Char) (h : List Char)
    (tl : List (List Char)) :
    glue sep ((c :: h) :: tl) = c :: glue sep (h :: tl) := by
  cases tl with
  | nil => rfl
  | cons d t2 => rfl

/-- The replacement scan substitutes the separator of every chunk
boundary: it equals the glue of the chunks with the replacement text. -/
theorem pyRepGo_eq_glue (o : Char) (os nn : List Char) (s : List Char) :
    ∀ skip, pyRepGo (o :: os) nn skip s = glue nn (chunksGo (o :: os) skip s) := by
  induction s with
  | nil => intro skip; simp [pyRepGo, chunksGo, glue]
  | cons c rest ih =>
    intro skip
    cases skip with
    | succ k => simpa [pyRepGo, chunksGo] using ih k
    | zero =>
      by_cases hp : (o :: os) <+: (c :: rest)
      · have hne := chunksGo_ne_nil o os rest ((o :: os).length - 1)
        simp only [pyRepGo, chunksGo, hp, List.isPrefixOf_iff_prefix, if_true]
        rw [ih ((o :: os).length - 1)]
        rcases hC : chunksGo (o :: os) ((o :: os).length - 1) rest with _ | ⟨h, t⟩
        · exact absurd hC hne
        · simp [glue]
      · have hne := chunksGo_ne_nil o os rest 0
        simp only [pyRepGo, chunksGo, hp, List.isPrefixOf_iff_prefix, if_false]
        rw [ih 0]
        rcases hC : chunksGo (o :: os) 0 rest with _ | ⟨h, t⟩
        · exact absurd hC hne
        · rw [glue_cons_head]

/-- Gluing the pattern back between the chunks restores the original
text: the chunk boundaries are exactly occurrences of the pattern. -/
theorem glue_chunks (o : Char) (os : List Char) :
    ∀ (n : Nat) (s : List Char), s.length ≤ n →
      glue (o :: os) (chunksGo (o :: os) 0 s) = s := by
  intro n
  induction n with
  | zero =>
    intro s hs
    have h0 : s = [] := List.eq_nil_of_length_eq_zero (Nat.le_zero.mp hs)
    subst h0
    simp [chunksGo, glue]
  | succ n ih =>
    intro s hs
    cases s with
    | nil => simp [chunksGo, glue]
    | cons c rest =>
      by_cases hp : (o :: os) <+: (c :: rest)
      · rcases hp with ⟨t, ht⟩
        have hc : o = c := by
          have := congrArg (fun l => l.head?) ht
          simpa using this
        have hrest : os ++ t = rest := by
          have := congrArg (fun l => l.tail) ht
          simpa using this
        have hdrop : rest.drop ((o :: os).length - 1) = t := by
          rw [← hrest]
          simp [List.drop_left os t]
        have hplen : t.length ≤ n := by
          have h1 : rest.length ≤ n := Nat.le_of_succ_le_succ hs
          have h2 : t.length ≤ rest.length := by
            rw [← hrest]; simp
          exact Nat.le_trans h2 h1
        have hpre : (o :: os) <+: (c :: rest) := ⟨t, ht⟩
        simp only [chunksGo, hpre, List.isPrefixOf_iff_prefix, if_true]
        rw [chunksGo_skip_drop, hdrop]
        rcases hC : chunksGo (o :: os) 0 t with _ | ⟨h, tl⟩
        · exact absurd hC (chunksGo_ne_nil o os t 0)
        · have hg : glue (o :: os) (chunksGo (o :: os) 0 t) = t := ih t hplen
          rw [hC] at hg
          show (o :: os) ++ glue (o :: os) (h :: tl) = c :: rest
          rw [hg]
          exact ht
      · rcases hC : chunksGo (o :: os) 0 rest with _ | ⟨h, tl⟩
        · exact absurd hC (chunksGo_ne_nil o os rest 0)
        · simp only [chunksGo, hp, List.isPrefixOf_iff_prefix, if_false, hC]
          rw [glue_cons_head, ← hC, ih rest (Nat.le_of_succ_le_succ hs)]

/-- The first chunk of the scan is a prefix of the text. -/
theorem chunks_head_prefix (o : Char) (os : List Char) :
    ∀ (s h : List Char) (tl : List (List Char)),
      chunksGo (o :: os) 0 s = h :: tl → h <+: s := by
  intro s
  induction s with
  | nil =>
    intro h tl heq
    simp only [chunksGo] at heq
    have : h = [] := by
      have := congrArg (fun l => l.head?) heq
      simpa using this.symm
    subst this
    exact List.nil_prefix
  | cons c rest ih =>
    intro h tl heq
    by_cases hp : (o :: os) <+: (c :: rest)
    · simp only [chunksGo, hp, List.isPrefixOf_iff_prefix, if_true] at heq
      have : h = [] := by
        have := congrArg (fun l => l.head?) heq
        simpa using this.symm
      subst this
      exact List.nil_prefix
    · rcases hC : chunksGo (o :: os) 0 rest with _ | ⟨h0, t0⟩
      · exact absurd hC (chunksGo_ne_nil o os rest 0)
      · simp only [chunksGo, hp, List.isPrefixOf_iff_prefix, if_false, hC] at heq
        have hh : h = c :: h0 := by
          have := congrArg (fun l => l.head?) heq
          simpa using this.symm
        rcases ih h0 t0 hC with ⟨u, hu⟩
        subst hh
        exact ⟨u, by rw [List.cons_append, hu]⟩

/-- No chunk of the decomposition contains an occurrence of the pattern:
every occurrence in the text is a chunk boundary and is substituted. -/
theorem chunks_no_occurrence (o : Char) (os : List Char) :
    ∀ (n : Nat) (s : List Char), s.length ≤ n →
      ∀ c ∈ chunksGo (o :: os) 0 s, ∀ a b, c ≠ a ++ (o :: os) ++ b := by
  intro n
  induction n with
  | zero =>
    intro s hs c hc a b heq
    have h0 : s = [] := List.eq_nil_of_length_eq_zero (Nat.le_zero.mp hs)
    subst h0
    simp only [chunksGo, List.mem_singleton] at hc
    subst hc
    simp at heq
  | succ n ih =>
    intro s hs c hc a b heq
    cases s with
    | nil =>
      simp only [chunksGo, List.mem_singleton] at hc
      subst hc
      simp at heq
    | cons c0 rest =>
      by_cases hp : (o :: os) <+: (c0 :: rest)
      · simp only [chunksGo, hp, List.isPrefixOf_iff_prefix, if_true,
          List.mem_cons] at hc
        rcases hc with hc0 | hcmem
        · subst hc0; simp at heq
        · rw [chunksGo_skip_drop] at hcmem
          have hlen : (rest.drop ((o :: os).length - 1)).length ≤ n := by
            have h1 : rest.length ≤ n := Nat.le_of_succ_le_succ hs
            simp only [List.length_drop]
            omega
          exact ih (rest.drop ((o :: os).length - 1)) hlen c hcmem a b heq
      · rcases hC : chunksGo (o :: os) 0 rest with _ | ⟨h0, t0⟩
        · exact absurd hC (chunksGo_ne_nil o os rest 0)
        · simp only [chunksGo, hp, List.isPrefixOf_iff_prefix, if_false, hC,
            List.mem_cons] at hc
          have hrn : rest.length ≤ n := Nat.le_of_succ_le_succ hs
          rcases hc with hc0 | hcm
          · subst hc0
            cases a with
            | nil =>
              have hpre0 : h0 <+: rest := chunks_head_prefix o os rest h0 t0 hC
              rcases hpre0 with ⟨u, hu⟩
              simp only [List.nil_append] at heq
              apply hp
              refine ⟨b ++ u, ?_⟩
              rw [← List.append_assoc, ← heq, List.cons_append, hu]
            | cons a0 a2 =>
              have hh : h0 = a2 ++ (o :: os) ++ b := by
                have := congrArg (fun l => l.tail) heq
                simpa using this
              exact ih rest hrn h0 (by rw [hC]; exact List.mem_cons_self _ _) a2 b hh
          · exact ih rest hrn c (by rw [hC]; exact List.mem_cons_of_mem _ hcm) a b heq

/-- C4: replace_media_paths pairs old and new paths positionally and
applies one literal global substitution per pair, sequentially in list
order over the progressively rewritten text; one substitution pass
decomposes the text into the chunks between the greedy non-overlapping
occurrences of the old string (the chunks themselves containing no
occurrence) and replaces every one of those occurrences with the new
string. -/
theorem claim_C4 :
    (∀ (content : String) (op np : Path) (olds news : List Path),
       replace_media_paths content (op :: olds) (np :: news)
         = replace_media_paths (pyReplace content (Path.toStr op) (Path.toStr np)) olds news)
    ∧ (∀ (s old nn : String), old.data ≠ [] →
        glue old.data (pyChunks old.data s.data) = s.data
        ∧ (pyReplace s old nn).data = glue nn.data (pyChunks old.data s.data)
        ∧ ∀ c ∈ pyChunks old.data s.data, ∀ a b, c ≠ a ++ old.data ++ b) := by
  constructor
  · intro content op np olds news
    rfl
  · intro s old nn hne
    rcases hod : old.data with _ | ⟨o, os⟩
    · exact absurd hod hne
    · refine ⟨?_, ?_, ?_⟩
      · exact glue_chunks o os s.data.length s.data (Nat.le_refl _)
      · have hrw : pyReplace s old nn = String.mk (pyRepGo (o :: os) nn.data 0 s.data) := by
          simp only [pyReplace, hod]
        rw [hrw]
        exact pyRepGo_eq_glue o os nn.data s.data 0
      · exact chunks_no_occurrence o os s.data.length s.data (Nat.le_refl _)

/-- Witness for claim_C4 at concrete inputs. -/
theorem claim_C4_witness :
    replace_media_paths "see ./img/a.png here" [parsePath "img/a.png"] [parsePath "assets/a.png"]
      = replace_media_paths
          (pyReplace "see ./img/a.png here" (Path.toStr (parsePath "img/a.png"))
            (Path.toStr (parsePath "assets/a.png"))) [] []
    ∧ glue "b".data (pyChunks "b".data "abc".data) = "abc".data :=
  ⟨claim_C4.1 "see ./img/a.png here" (parsePath "img/a.png") (parsePath "assets/a.png") [] [],
   (claim_C4.2 "abc" "b" "x" (by decide)).1⟩

/-- Filesystem for the extensions scenario: a Quarto document with one
valid media reference and an _extensions directory (containing ext.lua)
alongside it. -/
def fsC8 (png lua : String) : FileSystem :=
  ⟨[(⟨true, ["work", "doc.qmd"]⟩, "![](img/a.png)"),
    (⟨true, ["work", "img", "a.png"]⟩, png),
    (⟨true, ["work", "_extensions", "ext.lua"]⟩, lua)],
   [⟨true, []⟩, ⟨true, ["work"]⟩, ⟨true, ["work", "img"]⟩,
    ⟨true, ["work", "_extensions"]⟩]⟩

/-- The extensions scenario with the destination _extensions directory
already present under the output directory. -/
def fsC8pre (png lua : String) : FileSystem :=
  ⟨(fsC8 png lua).files, ⟨true, ["out", "_extensions"]⟩ :: (fsC8 png lua).dirs⟩

/-- C8: when an _extensions directory exists alongside the source file it
is recursively copied to the sibling of the assets directory (the output
directory) and the run completes; when that destination already exists the
copy raises FileExistsError, aborting the run after the asset copy and the
rewritten document write have already happened and before the renderer is
invoked. -/
theorem claim_C8 : ∀ (png lua : String),
    (extract (parsePath "/work/doc.qmd") (parsePath "/out") (parsePath "/")
        (fsC8 png lua)).outcome = Outcome.ok
    ∧ (extract (parsePath "/work/doc.qmd") (parsePath "/out") (parsePath "/")
        (fsC8 png lua)).fs.isDir ⟨true, ["out", "_extensions"]⟩ = true
    ∧ (extract (parsePath "/work/doc.qmd") (parsePath "/out") (parsePath "/")
        (fsC8 png lua)).fs.readFile ⟨true, ["out", "_extensions", "ext.lua"]⟩ = some lua
    ∧ (extract (parsePath "/work/doc.qmd") (parsePath "/out") (parsePath "/")
        (fsC8 png lua)).events
        = [Event.mkdirEv ⟨true, ["out"]⟩, Event.mkdirEv ⟨true, ["out", "assets"]⟩,
           Event.print "Processing Quarto file: /work/doc.qmd",
           Event.copyFile ⟨true, ["work", "img", "a.png"]⟩ ⟨true, ["out", "assets", "a.png"]⟩,
           Event.print "Copied: [bold green]a.png[/bold green] to /out/assets",
           Event.writeFile ⟨true, ["out", "doc.qmd"]⟩ "![](assets/a.png)",
           Event.print "New file created: [bold green]/out/doc.qmd[/bold green]",
           Event.copyTreeEv ⟨true, ["work", "_extensions"]⟩ ⟨true, ["out", "_extensions"]⟩,
           Event.print "Copied: [bold green]/work/_extensions[/bold green] to /out/_extensions",
           Event.print "Running Quarto build command...",
           Event.runShell "quarto render /out/doc.qmd"]
    ∧ (extract (parsePath "/work/doc.qmd") (parsePath "/out") (parsePath "/")
        (fsC8pre png lua)).outcome = Outcome.raised "FileExistsError"
    ∧ (extract (parsePath "/work/doc.qmd") (parsePath "/out") (parsePath "/")
        (fsC8pre png lua)).fs.readFile ⟨true, ["out", "assets", "a.png"]⟩ = some png
    ∧ (extract (parsePath "/work/doc.qmd") (parsePath "/out") (parsePath "/")
        (fsC8pre png lua)).fs.readFile ⟨true, ["out", "doc.qmd"]⟩ = some "![](assets/a.png)"
    ∧ (extract (parsePath "/work/doc.qmd") (parsePath "/out") (parsePath "/")
        (fsC8pre png lua)).events
        = [Event.mkdirEv ⟨true, ["out"]⟩, Event.mkdirEv ⟨true, ["out", "assets"]⟩,
           Event.print "Processing Quarto file: /work/doc.qmd",
           Event.copyFile ⟨true, ["work", "img", "a.png"]⟩ ⟨true, ["out", "assets", "a.png"]⟩,
           Event.print "Copied: [bold green]a.png[/bold green] to /out/assets",
           Event.writeFile ⟨true, ["out", "doc.qmd"]⟩ "![](assets/a.png)",
           Event.print "New file created: [bold green]/out/doc.qmd[/bold green]"] := by
  intro png lua
  exact ⟨rfl, rfl, rfl, rfl, rfl, rfl, rfl, rfl⟩

end Reportable
